import Mathlib

/-!
Verification of the pyrunner task-runner (pyrunner.py, example.py).

The development shallowly embeds the dispatcher core: namespace discovery
(`get_functions`), CLI argument interpretation (`parse_args`), signature
rendering (`build_func_text`), listing (`listingLines`), the restricted
call-expression evaluator used through `exec` (`parseCallStr`, `evalExprA`),
argument binding against a Python `getargspec`-style signature (`bindArgs`),
the main dispatch loop (`main`, `runTokens`) and the process-spawn helper's
argument assembly (`run`, `runArguments`).

Conventions of the embedding:
  * A namespace value is an `Entry`: whether `inspect.isfunction` holds, the
    defining file (`inspect.getabsfile`), its `inspect.getargspec` data, its
    `inspect.getdoc` text, and its behaviour as a Lean function from bound
    arguments to the list of lines it prints.
  * Console output is modelled as the list of strings passed to `print`,
    in order.  Process termination is an `Outcome`: `finished` (main
    returned; the host script ends right after, so the process exits 0),
    `exited code` (`sys.exit(code)`), or `crashed msg` (an uncaught Python
    exception propagates; the interpreter prints a traceback and exits
    non-zero).
  * Python 2 semantics are kept where they decide behaviour: in a call
    expression a positional argument may not follow a keyword argument
    (a compile-time SyntaxError), string `split()` splits on whitespace
    runs, `line[:-2]` drops the last two characters, list repetition with a
    negative count is empty.
-/

/-- Python values that occur as argument literals and bound arguments in
this program: ints, strings, booleans, None, tuples (gathered `*args`) and
string-keyed dicts (gathered `**kwargs`). -/
inductive Value where
  | int (n : Int)
  | str (s : String)
  | bool (b : Bool)
  | none
  | tuple (items : List Value)
  | dict (items : List (String × Value))

/-- The single-quote character, written by code point to keep apostrophes
out of the source text. -/
def squoteChar : Char := Char.ofNat 39

/-- A one-character string holding a single quote. -/
def squoteStr : String := String.mk [squoteChar]

/-- Python `repr` of a str for the quote-selection rule CPython uses:
single quotes unless the text has a single quote and no double quote.
(Escaping inside the text is not needed for the values this program
renders: they contain no quotes or backslashes.) -/
def pyReprStr (s : String) : String :=
  if s.data.contains squoteChar && !(s.data.contains '"') then "\"" ++ s ++ "\""
  else squoteStr ++ s ++ squoteStr

/-- Comma-space join, as Python `', '.join`. -/
def joinCommaSp : List String → String
  | [] => ""
  | [x] => x
  | x :: y :: ys => x ++ ", " ++ joinCommaSp (y :: ys)

/-- Join with an arbitrary separator, as Python `sep.join`. -/
def joinWith (sep : String) : List String → String
  | [] => ""
  | [x] => x
  | x :: y :: ys => x ++ sep ++ joinWith sep (y :: ys)

mutual

/-- Python `repr` restricted to `Value`. -/
def pyRepr : Value → String
  | .int n => toString n
  | .str s => pyReprStr s
  | .bool b => if b then "True" else "False"
  | .none => "None"
  | .tuple [v] => "(" ++ pyRepr v ++ ",)"
  | .tuple items => "(" ++ joinCommaSp (pyReprList items) ++ ")"
  | .dict items => "\x7b" ++ joinCommaSp (pyReprKvList items) ++ "\x7d"
termination_by v => sizeOf v

/-- `repr` of each tuple element. -/
def pyReprList : List Value → List String
  | [] => []
  | v :: vs => pyRepr v :: pyReprList vs
termination_by l => sizeOf l

/-- `repr` of each dict item as `'key': value`. -/
def pyReprKvList : List (String × Value) → List String
  | [] => []
  | (k, v) :: kvs => (pyReprStr k ++ ": " ++ pyRepr v) :: pyReprKvList kvs
termination_by l => sizeOf l

end

/-- Python `str` restricted to `Value` (only `str` values differ from
`repr` here). -/
def pyStr : Value → String
  | .str s => s
  | v => pyRepr v

/-- `inspect.getargspec` data of a function: positional parameter names in
declaration order, the default values (aligned to the trailing positional
parameters, as in Python), the `*args` name if any and the `**kwargs` name
if any. -/
structure ArgSpec where
  args : List String
  defaults : List Value
  varargs : Option String
  keywords : Option String

/-- The result of binding a call's arguments against an `ArgSpec`: values of
the named positional parameters in declaration order, the gathered `*args`
tuple and the gathered `**kwargs` items. -/
structure Bound where
  named : List (String × Value)
  star : List Value
  kwargs : List (String × Value)

/-- A value of the host script's global namespace as the dispatcher sees it:
`inspect.isfunction`, `inspect.getabsfile`, `inspect.getargspec`,
`inspect.getdoc`, and the behaviour of calling it (the lines it prints,
given its bound arguments).  Entries that are never called in a run carry a
vacuous body. -/
structure Entry where
  isFunction : Bool
  file : String
  argspec : ArgSpec
  doc : Option String
  body : Bound → List String

/-- The host namespace: Python dict iteration order is modelled by list
order (keys are unique in a dict). -/
abbrev Globals := List (String × Entry)

/-- First-match lookup in an association list, as a dict lookup. -/
def lookupPairs {α : Type} : List (String × α) → String → Option α
  | [], _ => Option.none
  | (k, v) :: rest, key => if k = key then some v else lookupPairs rest key

/-- Python `key in dct` on the modelled namespace. -/
def memNames (l : Globals) (key : String) : Bool :=
  l.any (fun p => p.1 == key)

/-- `b.named` lookup used by modelled function bodies. -/
def Bound.get (b : Bound) (name : String) : Value :=
  match lookupPairs b.named name with
  | some v => v
  | Option.none => Value.none

/-- Does the string's first character equal `c`? -/
def strHeadIs (s : String) (c : Char) : Bool :=
  match s.data with
  | [] => false
  | x :: _ => x = c

def startsWithDash (s : String) : Bool := strHeadIs s '-'

def startsWithUnderscore (s : String) : Bool := strHeadIs s '_'

/-- `os.path.abspath(__file__)` of the dispatcher module pyrunner.py:
a fixed absolute path for the one process the model describes. -/
def this_file : String := "/opt/pyrunner/pyrunner.py"

/-- The truthiness test `not only_file or dfile == only_file` from
`get_functions` (`None`, and the empty string, are falsy). -/
def onlyFileOk (only_file : Option String) (dfile : String) : Bool :=
  match only_file with
  | Option.none => true
  | some f => f.isEmpty || dfile == f

/-- The conjunctive filter `keep_item` of `get_functions`. -/
def keep_item (only_file : Option String) (show_hidden : Bool)
    (name : String) (value : Entry) : Bool :=
  (show_hidden || !(startsWithUnderscore name))
    && value.isFunction
    && !(value.file == this_file)
    && onlyFileOk only_file value.file

/-- Discovery: filter the namespace by visibility, function-ness and origin
(pyrunner.py `get_functions`). -/
def get_functions (globals_dict : Globals) (only_file : Option String)
    (show_hidden : Bool) : Globals :=
  globals_dict.filter (fun p => keep_item only_file show_hidden p.1 p.2)

/-- The `NO_DEFAULT` padding of `_build_func_text`: one slot per positional
parameter, `some v` on the trailing slots that have defaults.  Python's
`[NO_DEFAULT]*(len(args)-len(defaults))` with a negative count is the empty
list, as is Nat subtraction here. -/
def padDefaults (spec : ArgSpec) : List (Option Value) :=
  List.replicate (spec.args.length - spec.defaults.length) Option.none
    ++ spec.defaults.map some

/-- Python `line[:-2]` (drop the final two characters). -/
def strDropLast2 (s : String) : String := String.mk s.data.dropLast.dropLast

/-- One parameter's text in the loop of `_build_func_text`: the name
(star-prefixed when it equals the argspec's varargs name, double-star when
it equals the keywords name) followed by `=repr(default)` when the slot has
a default. -/
def renderItem (spec : ArgSpec) (p : String × Option Value) : String :=
  (if some p.1 = spec.varargs then "*" ++ p.1
   else if some p.1 = spec.keywords then "**" ++ p.1
   else p.1)
  ++ (match p.2 with | some dv => "=" ++ pyRepr dv | Option.none => "")

/-- `_build_func_text`: the rendered one-line signature and the doc text.
Follows the source: extend the positional names with the varargs and
keywords names (each with a `NO_DEFAULT` slot), fold the rendered items with
trailing `', '` separators onto `name + '('`, strip the last two characters
when the defaults list is non-empty, close the parenthesis. -/
def varargList (spec : ArgSpec) : List String :=
  match spec.varargs with | some v => [v] | Option.none => []

def kwargList (spec : ArgSpec) : List String :=
  match spec.keywords with | some k => [k] | Option.none => []

/-- The `NO_DEFAULT` slot appended together with the varargs name. -/
def varargSlot (spec : ArgSpec) : List (Option Value) :=
  match spec.varargs with | some _ => [Option.none] | Option.none => []

/-- The `NO_DEFAULT` slot appended together with the keywords name. -/
def kwargSlot (spec : ArgSpec) : List (Option Value) :=
  match spec.keywords with | some _ => [Option.none] | Option.none => []

def build_func_text (function : Entry) (name : String) : String × Option String :=
  let spec := function.argspec
  let args := spec.args ++ varargList spec ++ kwargList spec
  let defaults := padDefaults spec ++ varargSlot spec ++ kwargSlot spec
  let line := (args.zip defaults).foldl
    (fun acc p => acc ++ renderItem spec p ++ ", ") (name ++ "(")
  let line := if defaults.isEmpty then line else strDropLast2 line
  (line ++ ")", function.doc)

/-- Greedy word-wrap at the given width: `cur` is the line being filled,
each continuation line starts with the indent. -/
def packWords (width : Nat) (indent : String) : String → List String → List String
  | cur, [] => [cur]
  | cur, w :: ws =>
    if (cur ++ " " ++ w).length ≤ width then packWords width indent (cur ++ " " ++ w) ws
    else cur :: packWords width indent (indent ++ w) ws

/-- Modelled from the spec: `textwrap.fill(line, width, initial_indent,
subsequent_indent)` of the excluded text-reflow collaborator — collapse the
line into words and wrap them greedily at the width with the indent on every
produced line; an all-whitespace line becomes the empty string. -/
def fillLine (width : Nat) (indent : String) (line : String) : String :=
  match (line.splitOn " ").filter (fun w => !w.isEmpty) with
  | [] => ""
  | w :: ws => joinWith "\n" (packWords width indent (indent ++ w) ws)

/-- `format_docstring`: fill every line of the doc text at width 80 with the
indent, and join with newlines. -/
def format_docstring (docstring : String) (indent : String) : String :=
  joinWith "\n" ((docstring.splitOn "\n").map (fillLine 80 indent))

/-- The console lines `action_list_functions` prints: the `Commands` header,
then per entry one `- <signature>` line and, when the entry has doc text,
one print of the reflowed doc. -/
def listingLines (functions : Globals) : List String :=
  "Commands" :: (functions.map (fun p =>
    let ft := build_func_text p.2 p.1
    ("- " ++ ft.1) :: (match ft.2 with
      | some d => [format_docstring d "    "]
      | Option.none => []))).flatten

/-- The abstract syntax of the restricted Python call expressions the
dispatcher `exec`s: literals (ints, strings, booleans, `None`), unary
minus, bare-name references and calls with positional / keyword arguments.
In a call's argument list, `Option.none` tags a positional argument and
`some k` a `k=` keyword argument, in source order. -/
inductive Expr where
  | intLit (n : Nat)
  | strLit (s : String)
  | boolLit (b : Bool)
  | noneLit
  | negE (e : Expr)
  | identE (name : String)
  | callE (name : String) (args : List (Option String × Expr))

/-- Errors of compiling or evaluating an `exec`ed string.  `kwAfterKw` is
Python 2's compile-time `SyntaxError: non-keyword arg after keyword arg`,
`invalidSyn` any other rejection by the restricted grammar, `unsupported`
marks a construct the value domain of the model does not represent (a bare
name used as an argument value, a function object). -/
inductive PyErr where
  | kwAfterKw
  | invalidSyn
  | nameErr (name : String)
  | typeErr
  | unsupported
deriving DecidableEq

/-- Skip space characters. -/
def skipWs : List Char → List Char
  | [] => []
  | c :: cs => if c = ' ' then skipWs cs else c :: cs

def isIdentStart (c : Char) : Bool := c.isAlpha || c = '_'

def isIdentChar (c : Char) : Bool := c.isAlphanum || c = '_'

/-- Lex an identifier at the head of the input. -/
def lexIdent : List Char → Option (String × List Char)
  | [] => Option.none
  | c :: cs =>
    if isIdentStart c then
      some (String.mk (c :: cs.takeWhile isIdentChar), cs.dropWhile isIdentChar)
    else Option.none

def digitsToNat (ds : List Char) : Nat :=
  ds.foldl (fun a c => a * 10 + (c.toNat - 48)) 0

/-- Lex a run of decimal digits. -/
def lexNat (cs : List Char) : Option (Nat × List Char) :=
  let ds := cs.takeWhile Char.isDigit
  if ds.isEmpty then Option.none else some (digitsToNat ds, cs.dropWhile Char.isDigit)

/-- Lex a quoted string body up to the closing quote `q` (the literal texts
this program receives contain no escapes). -/
def lexStrBody (q : Char) : List Char → Option (List Char × List Char)
  | [] => Option.none
  | c :: cs =>
    if c = q then some ([], cs)
    else match lexStrBody q cs with
      | some (body, rest) => some (c :: body, rest)
      | Option.none => Option.none

/-- A bare identifier as an atom: the constants `True`, `False` and `None`,
else a name reference. -/
def identAtom (name : String) : Expr :=
  if name = "True" then .boolLit true
  else if name = "False" then .boolLit false
  else if name = "None" then .noneLit
  else .identE name

mutual

/-- Parse one expression.  The fuel only bounds recursion depth; parsing a
whole token is run with fuel larger than its length, which is ample because
every nesting level consumes input. -/
def parseExprF : Nat → List Char → Except PyErr (Expr × List Char)
  | 0, _ => .error .invalidSyn
  | fuel+1, cs0 =>
    let cs := skipWs cs0
    match cs with
    | [] => .error .invalidSyn
    | c :: rest =>
      if c = '-' then
        match parseExprF fuel rest with
        | .ok (e, r) => .ok (.negE e, r)
        | .error e => .error e
      else if c = squoteChar then
        match lexStrBody squoteChar rest with
        | some (body, r) => .ok (.strLit (String.mk body), r)
        | Option.none => .error .invalidSyn
      else if c = '"' then
        match lexStrBody '"' rest with
        | some (body, r) => .ok (.strLit (String.mk body), r)
        | Option.none => .error .invalidSyn
      else if c.isDigit then
        match lexNat cs with
        | some (n, r) => .ok (.intLit n, r)
        | Option.none => .error .invalidSyn
      else
        match lexIdent cs with
        | some (name, r) =>
          match skipWs r with
          | '(' :: r2 =>
            match parseCallArgs fuel false r2 with
            | .ok (as, r3) => .ok (.callE name as, r3)
            | .error e => .error e
          | _ => .ok (identAtom name, r)
        | Option.none => .error .invalidSyn

/-- Parse the arguments of a call up to and through the closing `)`.
`seenKw` records whether a keyword argument has appeared: Python 2 rejects
a later positional argument at compile time. -/
def parseCallArgs : Nat → Bool → List Char → Except PyErr (List (Option String × Expr) × List Char)
  | 0, _, _ => .error .invalidSyn
  | fuel+1, seenKw, cs0 =>
    match skipWs cs0 with
    | ')' :: r => .ok ([], r)
    | cs =>
      match parseOneArg fuel cs with
      | .error e => .error e
      | .ok (k, e, r) =>
        if k.isNone && seenKw then .error .kwAfterKw
        else
          match skipWs r with
          | ',' :: r2 =>
            match parseCallArgs fuel (seenKw || k.isSome) r2 with
            | .ok (as, r3) => .ok ((k, e) :: as, r3)
            | .error err => .error err
          | ')' :: r2 => .ok ([(k, e)], r2)
          | _ => .error .invalidSyn

/-- Parse one argument: `name=expr` (not `==`) is a keyword argument, else a
positional expression. -/
def parseOneArg : Nat → List Char → Except PyErr (Option String × Expr × List Char)
  | 0, _ => .error .invalidSyn
  | fuel+1, cs =>
    match lexIdent cs with
    | some (name, r) =>
      match skipWs r with
      | '=' :: r2 =>
        match r2 with
        | '=' :: _ => .error .invalidSyn
        | _ =>
          match parseExprF fuel r2 with
          | .ok (e, r3) => .ok (some name, e, r3)
          | .error err => .error err
      | _ =>
        match parseExprF fuel cs with
        | .ok (e, r3) => .ok (Option.none, e, r3)
        | .error err => .error err
    | Option.none =>
      match parseExprF fuel cs with
      | .ok (e, r3) => .ok (Option.none, e, r3)
      | .error err => .error err

end

/-- Is any string repeated in the list? -/
def anyDupStr : List String → Bool
  | [] => false
  | x :: xs => xs.contains x || anyDupStr xs

/-- Compile an `exec`ed invocation string: it must be exactly one call
expression (the restricted evaluator of the spec; `exec` accepts more
Python, which no invocation string of this program uses), with Python's
compile-time checks — no positional argument after a keyword argument, no
repeated keyword. -/
def parseCallStr (s : String) : Except PyErr (String × List (Option String × Expr)) :=
  match parseExprF (s.data.length + 2) s.data with
  | .ok (Expr.callE name as, r) =>
    if (skipWs r).isEmpty then
      if anyDupStr (as.filterMap Prod.fst) then .error .invalidSyn else .ok (name, as)
    else .error .invalidSyn
  | .ok _ => .error .invalidSyn
  | .error e => .error e

/-- The value bound to positional parameter `a` at index `i`: the call's
positional argument at `i` when there is one, else the keyword argument
named `a`, else the parameter's default; no source is a TypeError. -/
def bindOne (spec : ArgSpec) (pos : List Value) (kwNamed : List (String × Value))
    (i : Nat) (a : String) : Except Unit Value :=
  match pos[i]? with
  | some v => .ok v
  | Option.none =>
    match lookupPairs kwNamed a with
    | some v => .ok v
    | Option.none =>
      match (padDefaults spec)[i]? with
      | some (some v) => .ok v
      | _ => .error ()

/-- Bind every positional parameter, in declaration order. -/
def bindAll (spec : ArgSpec) (pos : List Value) (kwNamed : List (String × Value)) :
    Nat → List String → Except Unit (List (String × Value))
  | _, [] => .ok []
  | i, a :: rest =>
    match bindOne spec pos kwNamed i a with
    | .error e => .error e
    | .ok v =>
      match bindAll spec pos kwNamed (i+1) rest with
      | .error e => .error e
      | .ok tail => .ok ((a, v) :: tail)

/-- Split the call's keyword arguments into those naming a positional
parameter and those gathered by `**kwargs`; a keyword for a parameter
already filled positionally, or an unexpected keyword without a `**kwargs`
parameter, is a TypeError. -/
def classifyKws (spec : ArgSpec) (posCount : Nat) :
    List (String × Value) → Except Unit (List (String × Value) × List (String × Value))
  | [] => .ok ([], [])
  | (k, v) :: rest =>
    match classifyKws spec posCount rest with
    | .error e => .error e
    | .ok (nmd, extra) =>
      if spec.args.contains k then
        if (spec.args.take posCount).contains k then .error ()
        else .ok ((k, v) :: nmd, extra)
      else if spec.keywords.isSome then .ok (nmd, (k, v) :: extra)
      else .error ()

/-- Python 2 call-argument binding against a `getargspec` signature:
positionals fill the declared parameters in order with the excess gathered
by `*args` (a TypeError without one), keywords fill by name or are gathered
by `**kwargs`, remaining parameters take their defaults, and a parameter
left without a value is a TypeError. -/
def bindArgs (spec : ArgSpec) (pos : List Value) (kws : List (String × Value)) :
    Except Unit Bound :=
  if spec.args.length < pos.length ∧ spec.varargs = Option.none then .error ()
  else
    match classifyKws spec (min pos.length spec.args.length) kws with
    | .error e => .error e
    | .ok (kwNamed, extra) =>
      match bindAll spec pos kwNamed 0 spec.args with
      | .error e => .error e
      | .ok named => .ok ⟨named, pos.drop spec.args.length, extra⟩

mutual

/-- Evaluate an expression against the full global namespace: the printed
lines, and the value or the Python error.  A call looks its name up in the
globals (NameError when absent), evaluates the argument expressions left to
right, binds them against the callee's signature and runs the body; the
modelled functions return `None`.  The fuel only bounds recursion depth; the
caller supplies fuel exceeding the length of the source text the expression
was parsed from, which bounds the expression's height, so exhaustion is
unreachable. -/
def evalExpr : Nat → Globals → Expr → List String × Except PyErr Value
  | 0, _, _ => ([], .error .unsupported)
  | fuel+1, globals, e =>
    match e with
    | .intLit n => ([], .ok (.int (Int.ofNat n)))
    | .strLit s => ([], .ok (.str s))
    | .boolLit b => ([], .ok (.bool b))
    | .noneLit => ([], .ok .none)
    | .negE e1 =>
      match evalExpr fuel globals e1 with
      | (out, .ok (.int n)) => (out, .ok (.int (-n)))
      | (out, .ok (.bool b)) => (out, .ok (.int (-(if b then (1 : Int) else 0))))
      | (out, .ok _) => (out, .error .typeErr)
      | (out, .error err) => (out, .error err)
    | .identE name =>
      match lookupPairs globals name with
      | some _ => ([], .error .unsupported)
      | Option.none => ([], .error (.nameErr name))
    | .callE name args =>
      match lookupPairs globals name with
      | Option.none => ([], .error (.nameErr name))
      | some entry =>
        match evalArgs fuel globals args with
        | (out, .error err) => (out, .error err)
        | (out, .ok (pos, kws)) =>
          match bindArgs entry.argspec pos kws with
          | .error _ => (out, .error .typeErr)
          | .ok b => (out ++ entry.body b, .ok .none)

/-- Evaluate a call's arguments left to right, separating positional values
from keyword pairs. -/
def evalArgs : Nat → Globals → List (Option String × Expr) →
    List String × Except PyErr (List Value × List (String × Value))
  | 0, _, _ => ([], .error .unsupported)
  | _, _, [] => ([], .ok ([], []))
  | fuel+1, globals, (k, e) :: rest =>
    match evalExpr fuel globals e with
    | (out, .error err) => (out, .error err)
    | (out, .ok v) =>
      match evalArgs fuel globals rest with
      | (out2, .error err) => (out ++ out2, .error err)
      | (out2, .ok (ps, ks)) =>
        match k with
        | Option.none => (out ++ out2, .ok (v :: ps, ks))
        | some kn => (out ++ out2, .ok (ps, (kn, v) :: ks))

end

/-- `exec(s, globals_dict, dict())` on one invocation string: compile, then
evaluate; the printed lines, and whether an exception propagates. -/
def execStr (globals : Globals) (s : String) : List String × Except PyErr Unit :=
  match parseCallStr s with
  | .error e => ([], .error e)
  | .ok (name, args) =>
    match evalExpr (s.data.length + 2) globals (.callE name args) with
    | (out, .ok _) => (out, .ok ())
    | (out, .error e) => (out, .error e)

/-- The result of `parse_args`: the two boolean flags and the positional
tokens (argparse's `function` list), in order. -/
structure ParsedArgs where
  hidden : Bool
  list : Bool
  function : List String
deriving DecidableEq

def isFlagHidden (t : String) : Bool := t == "-H" || t == "--hidden"

def isFlagList (t : String) : Bool := t == "-l" || t == "--list"

/-- argparse's negative-number exception: a dash followed only by digits is
a positional token, not an option, for a parser with no number-like option
strings. -/
def looksNegNum (t : String) : Bool :=
  match t.data with
  | '-' :: c :: rest => c.isDigit && rest.all Char.isDigit
  | _ => false

/-- One step per token over the argparse contract: the two store-true flags
set their field, any other option-looking token is a usage error, the rest
are positionals in order. -/
def parseGo : List String → ParsedArgs → Option ParsedArgs
  | [], acc => some acc
  | t :: ts, acc =>
    if isFlagHidden t then parseGo ts { acc with hidden := true }
    else if isFlagList t then parseGo ts { acc with list := true }
    else if startsWithDash t && t != "-" && !looksNegNum t then Option.none
    else parseGo ts { acc with function := acc.function ++ [t] }

/-- `parse_args`: the documented contract of the excluded argparse
collaborator for this parser (the hidden and list flags, positionals);
`Option.none` is its fail-fast usage error (print usage, exit 2). -/
def parse_args (args : List String) : Option ParsedArgs :=
  parseGo args ⟨false, false, []⟩

def strContainsChar (s : String) (c : Char) : Bool := s.data.contains c

/-- `if '(' not in i: i += '()'` from the execution loop. -/
def normalizeTok (t : String) : String :=
  if strContainsChar t '(' then t else t ++ "()"

/-- `i[:i.index('(')]`: the substring before the first `(`. -/
def nameOf (s : String) : String :=
  String.mk (s.data.takeWhile (fun c => !(c == '(')))

/-- How a run ends: `finished` = main returned and the host script ends
(process exit 0); `exited code` = `sys.exit(code)`; `crashed msg` = an
uncaught exception (traceback, non-zero exit). -/
inductive Outcome where
  | finished
  | exited (code : Nat)
  | crashed (msg : String)
deriving DecidableEq

/-- The interpreter's message for a propagating error. -/
def errMsg : PyErr → String
  | .kwAfterKw => "SyntaxError: non-keyword arg after keyword arg"
  | .invalidSyn => "SyntaxError: invalid syntax"
  | .nameErr n => "NameError: name " ++ squoteStr ++ n ++ squoteStr ++ " is not defined"
  | .typeErr => "TypeError"
  | .unsupported => "unsupported construct in model"

/-- The execution loop of `main` over the invocation strings: normalize the
token, check the parsed name against the eligible set (message and
`sys.exit(1)` when absent), `exec` the call expression, and continue; an
exception from `exec` propagates. -/
def runTokens (globals functions : Globals) : List String → List String × Outcome
  | [] => ([], .finished)
  | t :: ts =>
    let i := normalizeTok t
    let name := nameOf i
    if memNames functions name then
      match execStr globals i with
      | (out, .ok _) =>
        let rest := runTokens globals functions ts
        (out ++ rest.1, rest.2)
      | (out, .error e) => (out, .crashed (errMsg e))
    else
      ([name ++ " is not a recognized function"], .exited 1)

/-- `main(globals_dict, args, commandfile, default)` with every argument
explicit (the source's `None` defaults only recover the caller's globals
and file through frame introspection).  Faithful to the source's branch
structure — in particular the default-action branch tests `not args`, the
raw token list, not the parsed invocation strings. -/
def Py.main (globals_dict : Globals) (args : List String) (commandfile : Option String)
    (default : String) : List String × Outcome :=
  match parse_args args with
  | Option.none => ([], .exited 2)
  | some parsed =>
    let functions := get_functions globals_dict commandfile parsed.hidden
    if parsed.list then
      (listingLines functions, .exited 1)
    else if memNames functions default && args.isEmpty then
      match execStr globals_dict (default ++ "()") with
      | (out, .ok _) => (out, .finished)
      | (out, .error e) => (out, .crashed (errMsg e))
    else if args.isEmpty then
      (listingLines functions, .exited 1)
    else
      runTokens globals_dict functions parsed.function

/-- An argument of the process-spawn helper `run`: a string, or a Python
list/tuple of arguments. -/
inductive RunArg where
  | str (s : String)
  | seq (items : List RunArg)

/-- Is the character one Python `str.split()` splits on? -/
def isWsChar (c : Char) : Bool := c = ' ' || c = '\t' || c = '\n' || c = '\r'

/-- Python `s.split()`: split on runs of whitespace, no empty words. -/
def splitWsChars (cs : List Char) : List (List Char) :=
  let r := cs.foldr
    (fun c acc =>
      if isWsChar c then ([], if acc.1.isEmpty then acc.2 else acc.1 :: acc.2)
      else (c :: acc.1, acc.2))
    ([], [])
  if r.1.isEmpty then r.2 else r.1 :: r.2

def pySplitWs (s : String) : List String := (splitWsChars s.data).map String.mk

/-- The argument-assembly loop of `run`: a single string argument is
whitespace-split; a single non-string argument leaves the assembled list
empty (the source has no branch for it); with several arguments, each
list/tuple is extended element-wise and anything else appended. -/
def runArguments (args : List RunArg) : List RunArg :=
  match args with
  | [a] =>
    match a with
    | .str s => (pySplitWs s).map RunArg.str
    | _ => []
  | _ => (args.map (fun a => match a with | .seq items => items | x => [x])).flatten

/-- The structured result of the spawned process. -/
structure RunResult where
  returncode : Int
  stdout : String
  stderr : String
deriving DecidableEq

/-- `run(*args, input=...)`: assert at least one argument, assemble the
argument list, and hand it with the optional textual input to the spawning
collaborator (`Popen` + `communicate`, modelled as the oracle `spawn`),
returning its `RunResult`; `.error ()` is the failed assert. -/
def run (spawn : List RunArg → Option String → RunResult) (args : List RunArg)
    (input : Option String) : Except Unit RunResult :=
  if args.isEmpty then .error ()
  else .ok (spawn (runArguments args) input)

/-- `os.path.abspath` of the host script example.py. -/
def exFile : String := "/opt/pyrunner/example.py"

/-- `inspect.getdoc` of example.py's `foo` (dedented). -/
def fooDoc : String := "Let foo speak\n\nReturns\n-------\nNone"

/-- example.py `_hidden()`. -/
def hiddenEntry : Entry :=
  { isFunction := true, file := exFile, argspec := ⟨[], [], Option.none, Option.none⟩,
    doc := some "this function should not be displayed under normal use",
    body := fun _ => ["hidden"] }

/-- example.py `default()`. -/
def defaultEntry : Entry :=
  { isFunction := true, file := exFile, argspec := ⟨[], [], Option.none, Option.none⟩,
    doc := Option.none,
    body := fun _ => ["this is the default behaviour!"] }

/-- example.py `foo(msg='hello')`. -/
def fooEntry : Entry :=
  { isFunction := true, file := exFile,
    argspec := ⟨["msg"], [Value.str "hello"], Option.none, Option.none⟩,
    doc := some fooDoc,
    body := fun b => ["foo says " ++ pyStr (b.get "msg")] }

/-- example.py `bar(arg, darg=1, *star, **stars)`. -/
def barEntry : Entry :=
  { isFunction := true, file := exFile,
    argspec := ⟨["arg", "darg"], [Value.int 1], some "star", some "stars"⟩,
    doc := Option.none,
    body := fun b =>
      ["arg " ++ pyStr (b.get "arg"), "darg " ++ pyStr (b.get "darg"),
       "args " ++ pyRepr (Value.tuple b.star), "kwargs " ++ pyRepr (Value.dict b.kwargs)] }

/-- pyrunner.py `run(*args, **kwargs)` as imported into example.py's globals
by `from pyrunner import *` (its body does process I/O outside the model and
is never invoked in the runs verified here). -/
def runEntry : Entry :=
  { isFunction := true, file := this_file,
    argspec := ⟨[], [], some "args", some "kwargs"⟩,
    doc := some "Runs a command on the underlying system.",
    body := fun _ => [] }

/-- pyrunner.py `main(...)` as imported into example.py's globals (never
invoked through the evaluator in the runs verified here). -/
def mainEntry : Entry :=
  { isFunction := true, file := this_file,
    argspec := ⟨["globals_dict", "args", "commandfile", "default"],
      [Value.none, Value.none, Value.none, Value.str "default"], Option.none, Option.none⟩,
    doc := Option.none,
    body := fun _ => [] }

/-- pyrunner.py's constant `DEFAULT_ACTION`, a string value imported by
`from pyrunner import *`: not a function. -/
def defaultActionEntry : Entry :=
  { isFunction := false, file := this_file, argspec := ⟨[], [], Option.none, Option.none⟩,
    doc := Option.none, body := fun _ => [] }

/-- example.py's global namespace as the dispatcher sees it: the script's
own functions plus representative names pulled in by `from pyrunner import *`
(dict iteration order fixed by the list). -/
def exGlobals : Globals :=
  [("run", runEntry), ("main", mainEntry), ("DEFAULT_ACTION", defaultActionEntry),
   ("_hidden", hiddenEntry), ("default", defaultEntry), ("foo", fooEntry), ("bar", barEntry)]

/-! ## Spec-side definitions

These render the spec's words, independently of the translated source, for
the claims that compare the code against a described format. -/

/-- Spec wording: a parameter shown as its name, a defaulted parameter as
`name=repr(default)`. -/
def renderParamSpec (p : String × Option Value) : String :=
  p.1 ++ (match p.2 with | some dv => "=" ++ pyRepr dv | Option.none => "")

/-- The declared positional parameters paired with their defaults: the
trailing subset of the parameter list carries the declared default values,
in order. -/
def declParams (spec : ArgSpec) : List (String × Option Value) :=
  (spec.args.take (spec.args.length - spec.defaults.length)).map (fun a => (a, Option.none))
    ++ (spec.args.drop (spec.args.length - spec.defaults.length)).zip (spec.defaults.map some)

/-- Spec wording: the left-to-right rendering in declaration order — the
positional parameters (defaulted ones as `name=repr(default)`), then the
variadic-positional as `*name`, then the variadic-keyword as `**name`. -/
def specRendered (spec : ArgSpec) : List String :=
  (declParams spec).map renderParamSpec
    ++ (match spec.varargs with | some v => ["*" ++ v] | Option.none => [])
    ++ (match spec.keywords with | some k => ["**" ++ k] | Option.none => [])

/-- Spec wording: the one-line signature — the name followed by the
parenthesized comma-join of the rendered parameters. -/
def specSignature (name : String) (spec : ArgSpec) : String :=
  name ++ "(" ++ joinCommaSp (specRendered spec) ++ ")"

/-- Spec wording for the multi-argument form of `run`: list or tuple
arguments are flattened one level into the spawned argument list, other
arguments appended. -/
def specFlatten (args : List RunArg) : List RunArg :=
  (args.map (fun a => match a with | .seq items => items | x => [x])).flatten

/-! ## String helper lemmas -/

theorem sdata_mk (l : List Char) : (String.mk l).data = l := rfl

theorem sext {a b : String} (h : a.data = b.data) : a = b := by
  cases a; cases b; exact congrArg String.mk h

theorem strDropLast2_append_comma (s : String) : strDropLast2 (s ++ ", ") = s := by
  apply sext
  show ((s ++ ", ").data.dropLast.dropLast) = s.data
  rw [String.data_append]
  show (s.data ++ [',', ' ']).dropLast.dropLast = s.data
  rw [show s.data ++ [',', ' '] = (s.data ++ [',']) ++ [' '] by simp]
  rw [List.dropLast_concat, List.dropLast_concat]

theorem strHeadIs_append (s t : String) (c : Char) :
    strHeadIs (s ++ t) c = (match s.data with
      | [] => strHeadIs t c
      | x :: _ => (x = c : Bool)) := by
  unfold strHeadIs
  rw [String.data_append]
  cases s.data <;> rfl

/-! ## Claim theorems -/

/-- C2: the run documented in example.py — invocation string
`bar(1, darg=88, -1, -2, fan=False)` against example.py's namespace — does
not dispatch `bar` at all: Python 2 rejects a positional argument after a
keyword argument when `exec` compiles the string, so the run prints nothing
and crashes with a SyntaxError (non-zero exit), instead of printing the
arg/darg/args/kwargs lines and exiting 0 as example.py's usage text and the
claim state. -/
theorem C2_bar_invocation_is_syntax_error :
    Py.main exGlobals ["bar(1, darg=88, -1, -2, fan=False)"] (some exFile) "default"
      = ([], Outcome.crashed "SyntaxError: non-keyword arg after keyword arg")
    ∧ parseCallStr "bar(1, darg=88, -1, -2, fan=False)" = .error .kwAfterKw :=
  ⟨rfl, rfl⟩

/-- C10: eligibility is checked only on the name before the first `(` —
`_hidden` is not an eligible command under default discovery, yet executing
`foo(_hidden())` runs `_hidden` with full effect (its `hidden` line prints
first) because the whole string is evaluated against the entire global
namespace; the argument is a call, not a literal. -/
theorem C10_argument_expressions_run_against_full_namespace :
    memNames (get_functions exGlobals (some exFile) false) "_hidden" = false
    ∧ nameOf (normalizeTok "foo(_hidden())") = "foo"
    ∧ Py.main exGlobals ["foo(_hidden())"] (some exFile) "default"
        = (["hidden", "foo says None"], Outcome.finished) := by
  refine ⟨rfl, rfl, ?_⟩
  have base : Py.main exGlobals ["foo(_hidden())"] (some exFile) "default"
      = (["hidden", "foo says " ++ pyStr Value.none], Outcome.finished) := rfl
  have h : pyStr Value.none = "None" := by simp [pyStr, pyRepr]
  rw [h] at base
  exact base

/-- C1 counterexample: with the token stream `["-H"]` the list flag is not
set and no invocation strings are supplied, and `default` is an eligible
command — but the run performs no action at all (no output, normal return,
exit 0): the default action is not invoked (its line is not printed) and the
listing is not rendered (no non-zero exit), because the source's
default-action branch tests the raw token list `args`, not the parsed
invocation strings. -/
theorem C1_counterexample_hidden_flag_only :
    memNames (get_functions exGlobals (some exFile) true) "default" = true
    ∧ parse_args ["-H"] = some ⟨true, false, []⟩
    ∧ Py.main exGlobals ["-H"] (some exFile) "default" = ([], Outcome.finished)
    ∧ ([] : List String) ≠ ["this is the default behaviour!"]
    ∧ Outcome.finished ≠ Outcome.exited 1 :=
  ⟨rfl, rfl, rfl, by decide, by decide⟩

/-- A spawn oracle that records the assembled argument list's length in the
exit code, used to observe `run`'s assembly. -/
def spawnProbe : List RunArg → Option String → RunResult :=
  fun argv _ => ⟨Int.ofNat argv.length, "", ""⟩

/-- C3 counterexample: a single list argument `run(['ls', '-la'])` is *not*
flattened into the spawned argument list — the source's single-argument
branch only handles strings, so the assembled list is empty, not the list's
elements. -/
theorem C3_counterexample_single_list_not_flattened :
    run spawnProbe [RunArg.seq [RunArg.str "ls", RunArg.str "-la"]] Option.none
      = .ok ⟨0, "", ""⟩
    ∧ runArguments [RunArg.seq [RunArg.str "ls", RunArg.str "-la"]]
      ≠ [RunArg.str "ls", RunArg.str "-la"] := by
  refine ⟨rfl, ?_⟩
  intro h
  rw [show runArguments [RunArg.seq [RunArg.str "ls", RunArg.str "-la"]] = [] from rfl] at h
  exact List.noConfusion h

/-- C3 amended: a single string argument is whitespace-split into the
spawned argument list; with two or more arguments, list/tuple arguments are
flattened one level and other arguments appended; a single non-string
(list/tuple) argument yields an empty spawned argument list; the optional
textual input is handed to the spawning collaborator with the assembled
arguments, whose structured (returncode, stdout, stderr) result `run`
returns. -/
theorem C3_amended_run_assembly (spawn : List RunArg → Option String → RunResult)
    (input : Option String) :
    (∀ s : String,
      run spawn [RunArg.str s] input = .ok (spawn ((pySplitWs s).map RunArg.str) input))
    ∧ (∀ (a b : RunArg) (rest : List RunArg),
      run spawn (a :: b :: rest) input = .ok (spawn (specFlatten (a :: b :: rest)) input))
    ∧ (∀ items : List RunArg,
      run spawn [RunArg.seq items] input = .ok (spawn [] input)) :=
  ⟨fun _ => rfl, fun _ _ _ => rfl, fun _ => rfl⟩

/-- C3 amended at concrete inputs: splitting and two-argument flattening. -/
theorem C3_amended_witness :
    run spawnProbe [RunArg.str "echo  hi"] Option.none
      = .ok (spawnProbe [RunArg.str "echo", RunArg.str "hi"] Option.none)
    ∧ run spawnProbe [RunArg.str "ls", RunArg.seq [RunArg.str "-l", RunArg.str "-a"]]
        (some "x") = .ok (spawnProbe
          [RunArg.str "ls", RunArg.str "-l", RunArg.str "-a"] (some "x")) :=
  ⟨(C3_amended_run_assembly spawnProbe Option.none).1 "echo  hi",
   (C3_amended_run_assembly spawnProbe (some "x")).2.1 (RunArg.str "ls")
     (RunArg.seq [RunArg.str "-l", RunArg.str "-a"]) []⟩

/-- A hidden function whose defining origin is the dispatcher's own module,
for the discovery counterexamples. -/
def pyHiddenEntry : Entry :=
  { isFunction := true, file := this_file, argspec := ⟨[], [], Option.none, Option.none⟩,
    doc := Option.none, body := fun _ => [] }

/-- C6 counterexample: a namespace containing only hidden functions where
discovery with show_hidden=true does *not* yield all of them — the one
hidden function is defined in the dispatcher's own file, so the origin
filter removes it even under show_hidden=true. -/
theorem C6_counterexample_hidden_dispatcher_function :
    (∀ p ∈ ([("_internal", pyHiddenEntry)] : Globals), startsWithUnderscore p.1 = true)
    ∧ get_functions [("_internal", pyHiddenEntry)] Option.none true = []
    ∧ ([("_internal", pyHiddenEntry)] : Globals) ≠ [] := by
  refine ⟨?_, rfl, by simp⟩
  intro p hp
  rw [List.mem_singleton] at hp
  subst hp
  rfl

/-- The amended claim's origin filters, in the spec's words: a plain
function whose defining origin is not the dispatcher's own module and
matches the only-file constraint when one is supplied. -/
def passesOriginFilters (oF : Option String) (v : Entry) : Bool :=
  v.isFunction && !(v.file == this_file) && onlyFileOk oF v.file

/-- C6 amended: for every namespace containing only underscore-prefixed
(hidden) entries, discovery with show_hidden=false yields an empty eligible
set, and discovery with show_hidden=true yields exactly those of the
entries that pass the origin filters — in a mixed namespace the passing
subset, in a fully-passing one all of them. -/
theorem C6_amended_hidden_discovery (ns : Globals) (oF : Option String)
    (hall : ∀ p ∈ ns, startsWithUnderscore p.1 = true) :
    get_functions ns oF false = []
    ∧ get_functions ns oF true = ns.filter (fun p => passesOriginFilters oF p.2) := by
  constructor
  · rw [get_functions, List.filter_eq_nil_iff]
    intro p hp
    have h := hall p hp
    simp [keep_item, h]
  · rw [get_functions]
    apply List.filter_congr
    intro p _
    simp [keep_item, passesOriginFilters, Bool.and_assoc]

/-- C6 amended at a concrete input: a namespace holding only hidden
functions, one defined in example.py and one in the dispatcher's own file —
empty under default discovery, and exactly the example.py one (the passing
subset) with show_hidden=true. -/
theorem C6_amended_witness :
    get_functions [("_hidden", hiddenEntry), ("_internal", pyHiddenEntry)]
      (some exFile) false = []
    ∧ get_functions [("_hidden", hiddenEntry), ("_internal", pyHiddenEntry)]
      (some exFile) true = [("_hidden", hiddenEntry)] := by
  have hall : ∀ p ∈ ([("_hidden", hiddenEntry), ("_internal", pyHiddenEntry)] : Globals),
      startsWithUnderscore p.1 = true := by
    intro p hp
    rcases List.mem_cons.mp hp with h | h
    · subst h; rfl
    · rw [List.mem_singleton] at h; subst h; rfl
  have h := C6_amended_hidden_discovery
    [("_hidden", hiddenEntry), ("_internal", pyHiddenEntry)] (some exFile) hall
  exact ⟨h.1, h.2.trans rfl⟩

/-- C7: for every namespace and every combination of the show_hidden flag
and the only-file constraint, the eligible set never contains an entry whose
defining origin is the dispatcher's own module. -/
theorem C7_no_dispatcher_origin_in_discovery (ns : Globals) (oF : Option String)
    (sh : Bool) (n : String) (v : Entry)
    (h : (n, v) ∈ get_functions ns oF sh) : v.file ≠ this_file := by
  have hk := (List.mem_filter.mp h).2
  intro he
  rw [keep_item] at hk
  rw [he] at hk
  simp at hk

/-- C7 at a concrete input: `default` is in example.py's eligible set and
its origin differs from the dispatcher's file. -/
theorem C7_witness : defaultEntry.file ≠ this_file :=
  C7_no_dispatcher_origin_in_discovery exGlobals (some exFile) false "default"
    defaultEntry (by
      rw [show get_functions exGlobals (some exFile) false
        = [("default", defaultEntry), ("foo", fooEntry), ("bar", barEntry)] from rfl]
      exact List.mem_cons_self _ _)

/-- C8: whenever the list flag is set, the run renders the listing of the
discovered commands and exits with status 1; and two such runs differing
only in their invocation strings or in the configured default-action
identifier (hence in whether a default action exists) behave identically. -/
theorem C8_list_mode_ignores_invocations (ns : Globals) (cf : Option String)
    (d d' : String) (toks toks' : List String) (h : Bool) (fs fs' : List String)
    (h1 : parse_args toks = some ⟨h, true, fs⟩)
    (h2 : parse_args toks' = some ⟨h, true, fs'⟩) :
    Py.main ns toks cf d = (listingLines (get_functions ns cf h), Outcome.exited 1)
    ∧ Py.main ns toks cf d = Py.main ns toks' cf d' := by
  have e1 : Py.main ns toks cf d
      = (listingLines (get_functions ns cf h), Outcome.exited 1) := by
    rw [Py.main, h1]
    rfl
  have e2 : Py.main ns toks' cf d'
      = (listingLines (get_functions ns cf h), Outcome.exited 1) := by
    rw [Py.main, h2]
    rfl
  exact ⟨e1, e1.trans e2.symm⟩

/-- C8 at concrete inputs: `-l foo` and `--list bar(1)` with different
default identifiers produce the same listing run. -/
theorem C8_witness :
    Py.main exGlobals ["-l", "foo"] (some exFile) "default"
      = (listingLines (get_functions exGlobals (some exFile) false), Outcome.exited 1)
    ∧ Py.main exGlobals ["-l", "foo"] (some exFile) "default"
      = Py.main exGlobals ["--list", "bar(1)"] (some exFile) "zzz" :=
  C8_list_mode_ignores_invocations exGlobals (some exFile) "default" "zzz"
    ["-l", "foo"] ["--list", "bar(1)"] false ["foo"] ["bar(1)"] rfl rfl

/-! ## Lemmas for the empty-token-stream run (C1) -/

/-- Is the string a Python identifier (a letter or underscore, then letters,
digits or underscores)? -/
def isIdentName (s : String) : Bool :=
  match s.data with
  | [] => false
  | c :: rest => isIdentStart c && rest.all isIdentChar

theorem alpha_not_digit (c : Char) (h : c.isAlpha = true) : c.isDigit = false := by
  simp [Char.isAlpha, Char.isUpper, Char.isLower, Char.isDigit, Char.le_def] at *
  obtain h1 | h1 := h
  · exact fun _ => Nat.lt_of_lt_of_le (show ((57:UInt32) < 65) by decide) h1.1
  · exact fun _ => Nat.lt_of_lt_of_le (show ((57:UInt32) < 97) by decide) h1.1

theorem identStart_not_digit (c : Char) (h : isIdentStart c = true) : c.isDigit = false := by
  have h' : c.isAlpha = true ∨ c = '_' := by simpa [isIdentStart] using h
  rcases h' with h1 | h1
  · exact alpha_not_digit c h1
  · subst h1; decide

theorem identStart_ne (c : Char) (h : isIdentStart c = true) :
    c ≠ ' ' ∧ c ≠ '-' ∧ c ≠ '"' ∧ c ≠ squoteChar := by
  refine ⟨?_, ?_, ?_, ?_⟩ <;> (intro he; subst he; exact absurd h (by decide))

theorem takeWhile_append_stop (p : Char → Bool) (l : List Char) (c : Char) (r : List Char)
    (hl : ∀ x ∈ l, p x = true) (hc : p c = false) :
    (l ++ c :: r).takeWhile p = l ∧ (l ++ c :: r).dropWhile p = c :: r := by
  induction l with
  | nil => simp [List.takeWhile, List.dropWhile, hc]
  | cons x xs ih =>
    have hx : p x = true := hl x (List.mem_cons_self _ _)
    have ih' := ih (fun y hy => hl y (List.mem_cons_of_mem _ hy))
    simp [List.takeWhile, List.dropWhile, hx, ih'.1, ih'.2]

theorem mk_data (d : String) : String.mk d.data = d := by cases d; rfl

theorem skipWs_of_head_ne (c : Char) (cs : List Char) (h : ¬ c = ' ') :
    skipWs (c :: cs) = c :: cs := by
  simp [skipWs, h]

theorem parseCallArgs_close (fuel : Nat) (r : List Char) :
    parseCallArgs (fuel+1) false (')' :: r) = .ok ([], r) := by
  simp [parseCallArgs, skipWs]

theorem parseExprF_identCall (fuel : Nat) (c : Char) (rest : List Char)
    (hstart : isIdentStart c = true) (hallmem : ∀ x ∈ rest, isIdentChar x = true) :
    parseExprF (fuel+1+1) (c :: (rest ++ ['(', ')']))
      = .ok (Expr.callE (String.mk (c :: rest)) [], []) := by
  obtain ⟨hsp, hdash, hdq, hsq⟩ := identStart_ne c hstart
  have hdig : c.isDigit = false := identStart_not_digit c hstart
  have htw := takeWhile_append_stop isIdentChar rest '(' [')'] hallmem (by decide)
  simp only [parseExprF]
  rw [skipWs_of_head_ne c _ hsp]
  simp only [if_neg hsp, if_neg hdash, if_neg hdq, if_neg hsq, hdig, Bool.false_eq_true,
    if_false, lexIdent, hstart, if_true, htw.1, htw.2]
  rw [show skipWs ['(', ')'] = ['(', ')'] from rfl]
  simp [parseCallArgs_close]

theorem parse_ident_call (d : String) (hd : isIdentName d = true) :
    parseCallStr (d ++ "()") = .ok (d, []) := by
  obtain ⟨c, rest, hdata⟩ : ∃ c rest, d.data = c :: rest := by
    cases hval : d.data with
    | nil => rw [isIdentName, hval] at hd; exact absurd hd (by simp)
    | cons c rest => exact ⟨c, rest, rfl⟩
  have hd' : (isIdentStart c && rest.all isIdentChar) = true := by
    rw [isIdentName] at hd
    rw [hdata] at hd
    exact hd
  have hstart : isIdentStart c = true := (Bool.and_eq_true_iff.mp hd').1
  have hallmem : ∀ x ∈ rest, isIdentChar x = true := by
    intro x hx; exact List.all_eq_true.mp (Bool.and_eq_true_iff.mp hd').2 x hx
  have hsdata : (d ++ "()").data = c :: (rest ++ ['(', ')']) := by
    rw [String.data_append, hdata]; rfl
  have hmk : String.mk (c :: rest) = d := by rw [← hdata]
  have hfuel : (c :: (rest ++ ['(', ')'])).length + 2 = ((rest.length + 3) + 1) + 1 := by
    simp [List.length_append]
  rw [parseCallStr, hsdata, hfuel]
  rw [parseExprF_identCall (rest.length + 3) c rest hstart hallmem]
  rw [hmk]
  rfl

theorem evalExpr_call_nil (fuel : Nat) (ns : Globals) (d : String) (entry : Entry) (b : Bound)
    (hlook : lookupPairs ns d = some entry)
    (hbind : bindArgs entry.argspec [] [] = .ok b) :
    evalExpr (fuel+1+1) ns (.callE d []) = (entry.body b, .ok .none) := by
  simp only [evalExpr]
  rw [hlook]
  simp only [show evalArgs (fuel+1) ns [] = ([], .ok ([], [])) from rfl]
  rw [hbind]
  simp

theorem execStr_ident_call (ns : Globals) (d : String) (entry : Entry) (b : Bound)
    (hid : isIdentName d = true)
    (hlook : lookupPairs ns d = some entry)
    (hbind : bindArgs entry.argspec [] [] = .ok b) :
    execStr ns (d ++ "()") = (entry.body b, .ok ()) := by
  rw [execStr, parse_ident_call d hid]
  have hlen : (d ++ "()").data.length + 2 = (d.data.length + 2) + 1 + 1 := by
    rw [String.data_append]
    simp [List.length_append]
  rw [hlen]
  simp only [evalExpr_call_nil (d.data.length + 2) ns d entry b hlook hbind]

/-- C1 (amended): for every run whose token stream is empty (so the list
flag is unset and no invocation strings are supplied), if an eligible
command named by the default-action identifier exists among eligible
commands, it is invoked exactly once with no arguments (the run's output is
that one call's output and the process exits 0); otherwise the command
listing is rendered and the process exits with non-zero status.  (The
original claim also covered token streams holding only flags such as `-H`;
the code performs no action there — see the counterexample.) -/
theorem C1_amended_empty_token_stream (ns : Globals) (cf : Option String) (d : String) :
    (∀ (entry : Entry) (b : Bound),
      isIdentName d = true →
      lookupPairs ns d = some entry →
      memNames (get_functions ns cf false) d = true →
      bindArgs entry.argspec [] [] = .ok b →
      Py.main ns [] cf d = (entry.body b, Outcome.finished))
    ∧ (memNames (get_functions ns cf false) d = false →
      Py.main ns [] cf d = (listingLines (get_functions ns cf false), Outcome.exited 1)) := by
  constructor
  · intro entry b hid hlook hmem hbind
    rw [Py.main]
    rw [show parse_args [] = some ⟨false, false, []⟩ from rfl]
    simp only [hmem, List.isEmpty_nil, Bool.and_true, if_true, if_false,
      Bool.false_eq_true]
    rw [execStr_ident_call ns d entry b hid hlook hbind]
  · intro hmem
    rw [Py.main]
    rw [show parse_args [] = some ⟨false, false, []⟩ from rfl]
    simp only [hmem]
    rfl

/-- C1 (amended) at a concrete input: example.py run with no tokens invokes
`default()` once and the process exits 0. -/
theorem C1_amended_witness :
    Py.main exGlobals [] (some exFile) "default"
      = (["this is the default behaviour!"], Outcome.finished) :=
  (C1_amended_empty_token_stream exGlobals (some exFile) "default").1
    defaultEntry ⟨[], [], []⟩ rfl rfl rfl rfl

/-- The first `k` invocation strings all succeed: each one's parsed name is
eligible and its `exec` returns without error, printing the paired lines. -/
def execEachOk (g fns : Globals) : List String → List (List String) → Prop
  | [], [] => True
  | t :: ts, o :: os =>
      memNames fns (nameOf (normalizeTok t)) = true ∧
      execStr g (normalizeTok t) = (o, Except.ok ()) ∧
      execEachOk g fns ts os
  | _, _ => False

theorem flagHidden_dash (t : String) (h : isFlagHidden t = true) :
    startsWithDash t = true := by
  have h' : t = "-H" ∨ t = "--hidden" := by simpa [isFlagHidden] using h
  rcases h' with h1 | h1 <;> subst h1 <;> decide

theorem flagList_dash (t : String) (h : isFlagList t = true) :
    startsWithDash t = true := by
  have h' : t = "-l" ∨ t = "--list" := by simpa [isFlagList] using h
  rcases h' with h1 | h1 <;> subst h1 <;> decide

theorem parseGo_plain (ts : List String) :
    ∀ (acc : ParsedArgs), (∀ t ∈ ts, startsWithDash t = false) →
      parseGo ts acc = some ⟨acc.hidden, acc.list, acc.function ++ ts⟩ := by
  induction ts with
  | nil => intro acc _; simp [parseGo]
  | cons t ts ih =>
    intro acc h
    have hdash : startsWithDash t = false := h t (List.mem_cons_self _ _)
    have hfh : isFlagHidden t = false := by
      cases hf : isFlagHidden t with
      | false => rfl
      | true => rw [flagHidden_dash t hf] at hdash; exact absurd hdash (by simp)
    have hfl : isFlagList t = false := by
      cases hf : isFlagList t with
      | false => rfl
      | true => rw [flagList_dash t hf] at hdash; exact absurd hdash (by simp)
    rw [parseGo, hfh, hfl, hdash]
    simp only [Bool.false_eq_true, if_false, Bool.false_and]
    rw [ih _ (fun x hx => h x (List.mem_cons_of_mem _ hx))]
    simp

theorem parse_args_plain (ts : List String) (h : ∀ t ∈ ts, startsWithDash t = false) :
    parse_args ts = some ⟨false, false, ts⟩ := by
  rw [parse_args, parseGo_plain ts _ h]
  rfl

theorem runTokens_abort (g fns : Globals) (pre : List String) (outs : List (List String))
    (bad : String) (post : List String)
    (hpre : execEachOk g fns pre outs)
    (hbad : memNames fns (nameOf (normalizeTok bad)) = false) :
    runTokens g fns (pre ++ bad :: post)
      = (outs.flatten ++ [nameOf (normalizeTok bad) ++ " is not a recognized function"],
         Outcome.exited 1) := by
  induction pre generalizing outs with
  | nil =>
    cases outs with
    | nil =>
      rw [List.nil_append, runTokens, hbad]
      simp
    | cons o os => exact hpre.elim
  | cons t ts ih =>
    cases outs with
    | nil => exact hpre.elim
    | cons o os =>
      obtain ⟨h1, h2, h3⟩ := hpre
      rw [List.cons_append, runTokens, h1, h2]
      simp only [if_true]
      rw [ih os h3]
      simp

/-- C4: for every run whose tokens are plain invocation strings, if the
name parsed from one of them (the substring before its first parenthesis,
after the empty-parenthesis normalization) is not among the eligible
commands, while every earlier invocation string names an eligible command
and evaluates without error, then the run prints exactly the earlier
invocations' output followed by a message naming the offending identifier,
and terminates with exit status 1 — no invocation string after the
offending one is evaluated. -/
theorem C4_unrecognized_aborts (ns : Globals) (cf : Option String) (d : String)
    (pre post : List String) (bad : String) (outs : List (List String))
    (hplain : ∀ t ∈ pre ++ bad :: post, startsWithDash t = false)
    (hpre : execEachOk ns (get_functions ns cf false) pre outs)
    (hbad : memNames (get_functions ns cf false) (nameOf (normalizeTok bad)) = false) :
    Py.main ns (pre ++ bad :: post) cf d
      = (outs.flatten ++ [nameOf (normalizeTok bad) ++ " is not a recognized function"],
         Outcome.exited 1) := by
  rw [Py.main, parse_args_plain _ hplain]
  have hne : (pre ++ bad :: post).isEmpty = false := by cases pre <;> simp
  simp only [hne, Bool.and_false, Bool.false_eq_true, if_false]
  exact runTokens_abort ns (get_functions ns cf false) pre outs bad post hpre hbad

/-- C4 at a concrete input: `foo baz default` on example.py evaluates `foo`,
prints the message naming `baz`, exits 1 and never evaluates `default`. -/
theorem C4_witness :
    Py.main exGlobals ["foo", "baz", "default"] (some exFile) "default"
      = (["foo says hello", "baz is not a recognized function"], Outcome.exited 1) :=
  C4_unrecognized_aborts exGlobals (some exFile) "default" ["foo"] ["default"] "baz"
    [["foo says hello"]] (by decide) ⟨rfl, rfl, trivial⟩ rfl

theorem parseGo_append (xs ys : List String) :
    ∀ acc : ParsedArgs, parseGo (xs ++ ys) acc
      = match parseGo xs acc with
        | Option.none => Option.none
        | some acc' => parseGo ys acc' := by
  induction xs with
  | nil => intro acc; rfl
  | cons x xs ih =>
    intro acc
    rw [List.cons_append, parseGo, parseGo]
    by_cases h1 : isFlagHidden x = true
    · rw [if_pos h1, if_pos h1, ih]
    · rw [if_neg h1, if_neg h1]
      by_cases h2 : isFlagList x = true
      · rw [if_pos h2, if_pos h2, ih]
      · rw [if_neg h2, if_neg h2]
        by_cases h3 : (startsWithDash x && x != "-" && !looksNegNum x) = true
        · rw [if_pos h3, if_pos h3]
        · rw [if_neg h3, if_neg h3, ih]

theorem parseGo_shift (ts : List String) :
    ∀ (h l : Bool) (f : List String), parseGo ts ⟨h, l, f⟩
      = (parseGo ts ⟨h, l, []⟩).map (fun r => ⟨r.hidden, r.list, f ++ r.function⟩) := by
  induction ts with
  | nil => intro h l f; simp [parseGo]
  | cons t ts ih =>
    intro h l f
    rw [parseGo, parseGo]
    by_cases h1 : isFlagHidden t = true
    · rw [if_pos h1, if_pos h1, ih]
    · rw [if_neg h1, if_neg h1]
      by_cases h2 : isFlagList t = true
      · rw [if_pos h2, if_pos h2, ih]
      · rw [if_neg h2, if_neg h2]
        by_cases h3 : (startsWithDash t && t != "-" && !looksNegNum t) = true
        · rw [if_pos h3, if_pos h3]; rfl
        · rw [if_neg h3, if_neg h3, ih h l ([] ++ [t]), ih h l (f ++ [t]),
            Option.map_map]
          apply congrArg (fun g => Option.map g (parseGo ts ⟨h, l, []⟩))
          funext r
          simp

theorem normalizeTok_no_paren (t : String) (h : strContainsChar t '(' = false) :
    normalizeTok t = t ++ "()" := by
  rw [normalizeTok, h]
  rfl

theorem normalizeTok_append_parens (t : String) :
    normalizeTok (t ++ "()") = t ++ "()" := by
  rw [normalizeTok]
  have : strContainsChar (t ++ "()") '(' = true := by
    rw [strContainsChar, String.data_append]
    show (t.data ++ '(' :: [')']).contains '(' = true
    simp
  rw [this]
  rfl

theorem startsWithDash_append_parens (t : String) (h : startsWithDash t = false) :
    startsWithDash (t ++ "()") = false := by
  rw [startsWithDash, strHeadIs, String.data_append]
  rw [startsWithDash, strHeadIs] at h
  cases hd : t.data with
  | nil => rfl
  | cons c cs => rw [hd] at h; simpa using h

theorem runTokens_congr (g fns : Globals) (y y' : String)
    (hnorm : normalizeTok y = normalizeTok y') (xs zs : List String) :
    runTokens g fns (xs ++ y :: zs) = runTokens g fns (xs ++ y' :: zs) := by
  induction xs with
  | nil =>
    rw [List.nil_append, List.nil_append, runTokens, runTokens, hnorm]
  | cons x xs ih =>
    rw [List.cons_append, List.cons_append, runTokens, runTokens, ih]

theorem parseGo_plain_step (t : String) (hdash : startsWithDash t = false)
    (ts : List String) (acc : ParsedArgs) :
    parseGo (t :: ts) acc = parseGo ts ⟨acc.hidden, acc.list, acc.function ++ [t]⟩ := by
  have hfh : isFlagHidden t = false := by
    cases hf : isFlagHidden t with
    | false => rfl
    | true => rw [flagHidden_dash t hf] at hdash; exact absurd hdash (by simp)
  have hfl : isFlagList t = false := by
    cases hf : isFlagList t with
    | false => rfl
    | true => rw [flagList_dash t hf] at hdash; exact absurd hdash (by simp)
  rw [parseGo, hfh, hfl, hdash]
  rfl

theorem main_token_paren_congr (ns : Globals) (cf : Option String) (d : String)
    (a b : List String) (t : String)
    (hpar : strContainsChar t '(' = false)
    (hdash : startsWithDash t = false) :
    Py.main ns (a ++ t :: b) cf d = Py.main ns (a ++ (t ++ "()") :: b) cf d := by
  have hdash' := startsWithDash_append_parens t hdash
  have hnorm : normalizeTok t = normalizeTok (t ++ "()") := by
    rw [normalizeTok_no_paren t hpar, normalizeTok_append_parens]
  have hne1 : (a ++ t :: b).isEmpty = false := by cases a <;> simp
  have hne2 : (a ++ (t ++ "()") :: b).isEmpty = false := by cases a <;> simp
  simp only [Py.main]
  rw [parse_args, parse_args, parseGo_append, parseGo_append]
  cases hpa : parseGo a ⟨false, false, []⟩ with
  | none => rfl
  | some acc =>
    dsimp only
    rw [parseGo_plain_step t hdash b acc, parseGo_plain_step _ hdash' b acc]
    rw [parseGo_shift b acc.hidden acc.list (acc.function ++ [t]),
        parseGo_shift b acc.hidden acc.list (acc.function ++ [t ++ "()"])]
    cases hpb : parseGo b ⟨acc.hidden, acc.list, []⟩ with
    | none => rfl
    | some r =>
      dsimp only [Option.map]
      by_cases hrl : r.list = true
      · simp only [hrl, if_true]
      · simp only [hrl, Bool.false_eq_true, if_false, hne1, hne2, Bool.and_false]
        have hfix : ∀ (f rf : List String) (x : String),
            (f ++ [x]) ++ rf = f ++ x :: rf := by
          intro f rf x
          simp
        rw [hfix acc.function r.function t, hfix acc.function r.function (t ++ "()")]
        exact runTokens_congr ns (get_functions ns cf r.hidden) t (t ++ "()") hnorm
          acc.function r.function

/-- C9: a token with no parenthesis behaves exactly as the token followed by
`()` — in any token position of any run; in particular, for example.py's
`foo(msg='hello')`, token `foo` produces the same run as `foo()`, both print
`foo says hello`, and `foo("bye")` overrides the default. -/
theorem C9_bare_token_equals_empty_call :
    (∀ (ns : Globals) (cf : Option String) (d : String) (a b : List String) (t : String),
      strContainsChar t '(' = false → startsWithDash t = false →
      Py.main ns (a ++ t :: b) cf d = Py.main ns (a ++ (t ++ "()") :: b) cf d)
    ∧ Py.main exGlobals ["foo"] (some exFile) "default"
        = Py.main exGlobals ["foo()"] (some exFile) "default"
    ∧ Py.main exGlobals ["foo"] (some exFile) "default"
        = (["foo says hello"], Outcome.finished)
    ∧ Py.main exGlobals ["foo(\"bye\")"] (some exFile) "default"
        = (["foo says bye"], Outcome.finished) :=
  ⟨fun ns cf d a b t h1 h2 => main_token_paren_congr ns cf d a b t h1 h2,
   main_token_paren_congr exGlobals (some exFile) "default" [] [] "foo" rfl rfl,
   rfl, rfl⟩

/-- C9 at a concrete input: the bare token and the empty-call token give the
same run. -/
theorem C9_witness :
    Py.main exGlobals ["bar"] (some exFile) "default"
      = Py.main exGlobals ["bar()"] (some exFile) "default" :=
  C9_bare_token_equals_empty_call.1 exGlobals (some exFile) "default" [] [] "bar" rfl rfl

theorem foldl_render_acc (spec : ArgSpec) (l : List (String × Option Value)) :
    ∀ (i j : String), l.foldl (fun acc p => acc ++ renderItem spec p ++ ", ") (i ++ j)
      = i ++ l.foldl (fun acc p => acc ++ renderItem spec p ++ ", ") j := by
  induction l with
  | nil => intro i j; rfl
  | cons p ps ih =>
    intro i j
    rw [List.foldl_cons, List.foldl_cons]
    have hre : (i ++ j) ++ renderItem spec p ++ ", "
        = i ++ (j ++ renderItem spec p ++ ", ") := by
      simp [String.append_assoc]
    rw [hre]
    exact ih i (j ++ renderItem spec p ++ ", ")

theorem foldl_render_trail (spec : ArgSpec) (l : List (String × Option Value)) (hne : l ≠ []) :
    l.foldl (fun acc p => acc ++ renderItem spec p ++ ", ") ""
      = joinCommaSp (l.map (renderItem spec)) ++ ", " := by
  induction l with
  | nil => exact absurd rfl hne
  | cons p ps ih =>
    cases ps with
    | nil =>
      rw [List.foldl_cons, List.foldl_nil, List.map_cons, List.map_nil]
      rw [String.empty_append]
      rfl
    | cons q qs =>
      have step : ∀ x : List (String × Option Value),
          x.foldl (fun acc p => acc ++ renderItem spec p ++ ", ")
              ("" ++ renderItem spec p ++ ", ")
            = (renderItem spec p ++ ", ")
              ++ x.foldl (fun acc p => acc ++ renderItem spec p ++ ", ") "" := by
        intro x
        rw [String.empty_append]
        calc x.foldl _ (renderItem spec p ++ ", ")
            = x.foldl (fun acc p => acc ++ renderItem spec p ++ ", ")
                ((renderItem spec p ++ ", ") ++ "") := by rw [String.append_empty]
          _ = _ := foldl_render_acc spec x (renderItem spec p ++ ", ") ""
      rw [List.foldl_cons, step (q :: qs), ih (by simp)]
      rw [List.map_cons]
      show (renderItem spec p ++ ", ") ++ (joinCommaSp (renderItem spec q :: List.map (renderItem spec) qs) ++ ", ")
        = joinCommaSp (renderItem spec p :: renderItem spec q :: List.map (renderItem spec) qs) ++ ", "
      rw [joinCommaSp]
      rw [String.append_assoc, String.append_assoc, String.append_assoc]

theorem padDefaults_length (spec : ArgSpec)
    (h : spec.defaults.length ≤ spec.args.length) :
    (padDefaults spec).length = spec.args.length := by
  simp [padDefaults]
  omega

theorem zip_replicate_self {α β : Type} (l : List α) (c : β) :
    l.zip (List.replicate l.length c) = l.map (fun a => (a, c)) := by
  induction l with
  | nil => rfl
  | cons x xs ih =>
    rw [List.length_cons, List.replicate_succ, List.zip_cons_cons, ih, List.map_cons]

theorem zip_pad_eq_declParams (spec : ArgSpec)
    (hlen : spec.defaults.length ≤ spec.args.length) :
    spec.args.zip (padDefaults spec) = declParams spec := by
  set k := spec.args.length - spec.defaults.length with hk
  have htk : (spec.args.take k).length = k := by
    rw [List.length_take]
    omega
  calc spec.args.zip (padDefaults spec)
      = (spec.args.take k ++ spec.args.drop k).zip
          (List.replicate k Option.none ++ spec.defaults.map some) := by
        rw [List.take_append_drop]
        rfl
    _ = (spec.args.take k).zip (List.replicate k Option.none)
          ++ (spec.args.drop k).zip (spec.defaults.map some) := by
        apply List.zip_append
        rw [htk, List.length_replicate]
    _ = declParams spec := by
        rw [show List.replicate k (Option.none : Option Value)
              = List.replicate (spec.args.take k).length Option.none by rw [htk]]
        rw [zip_replicate_self]
        rfl

theorem declParams_fst_mem (spec : ArgSpec) :
    ∀ p ∈ declParams spec, p.1 ∈ spec.args := by
  intro p hp
  rw [declParams] at hp
  rcases List.mem_append.mp hp with h | h
  · obtain ⟨a, ha, rfl⟩ := List.mem_map.mp h
    exact List.take_subset _ _ ha
  · exact List.drop_subset _ _ (List.of_mem_zip h).1

theorem full_lengths (spec : ArgSpec)
    (hlen : spec.defaults.length ≤ spec.args.length) :
    (spec.args ++ varargList spec ++ kwargList spec).length
      = (padDefaults spec ++ varargSlot spec ++ kwargSlot spec).length := by
  simp only [List.length_append, padDefaults_length spec hlen]
  cases hv : spec.varargs <;> cases hk : spec.keywords <;>
    simp [varargList, kwargList, varargSlot, kwargSlot, hv, hk]

theorem build_func_text_renders (function : Entry) (name : String)
    (hlen : function.argspec.defaults.length ≤ function.argspec.args.length)
    (hva : ∀ a ∈ function.argspec.args, some a ≠ function.argspec.varargs)
    (hka : ∀ a ∈ function.argspec.args, some a ≠ function.argspec.keywords)
    (hvk : function.argspec.varargs = Option.none
      ∨ function.argspec.varargs ≠ function.argspec.keywords) :
    (build_func_text function name).1 = specSignature name function.argspec := by
  set spec := function.argspec with hspec
  have hz : (spec.args ++ varargList spec ++ kwargList spec).zip
        (padDefaults spec ++ varargSlot spec ++ kwargSlot spec)
      = spec.args.zip (padDefaults spec)
        ++ (varargList spec).zip (varargSlot spec)
        ++ (kwargList spec).zip (kwargSlot spec) := by
    have l1 : (spec.args ++ varargList spec).length
        = (padDefaults spec ++ varargSlot spec).length := by
      simp only [List.length_append, padDefaults_length spec hlen]
      cases hv : spec.varargs <;> simp [varargList, varargSlot, hv]
    have l2 : spec.args.length = (padDefaults spec).length :=
      (padDefaults_length spec hlen).symm
    rw [List.zip_append l1, List.zip_append l2]
  have hmapA : (spec.args.zip (padDefaults spec)).map (renderItem spec)
      = (declParams spec).map renderParamSpec := by
    rw [zip_pad_eq_declParams spec hlen]
    apply List.map_congr_left
    intro p hp
    have hp1 : p.1 ∈ spec.args := declParams_fst_mem spec p hp
    rw [renderItem, if_neg (hva p.1 hp1), if_neg (hka p.1 hp1), renderParamSpec]
  have hmapV : ((varargList spec).zip (varargSlot spec)).map (renderItem spec)
      = (match spec.varargs with | some v => ["*" ++ v] | Option.none => []) := by
    cases hv : spec.varargs with
    | none => simp [varargList, varargSlot, hv]
    | some v =>
      simp only [varargList, varargSlot, hv, List.zip_cons_cons, List.zip_nil_right,
        List.map_cons, List.map_nil]
      rw [renderItem, if_pos (by rw [hv])]
      simp [String.append_empty]
  have hmapK : ((kwargList spec).zip (kwargSlot spec)).map (renderItem spec)
      = (match spec.keywords with | some k => ["**" ++ k] | Option.none => []) := by
    cases hk : spec.keywords with
    | none => simp [kwargList, kwargSlot, hk]
    | some k =>
      have hne : ¬ (some k = spec.varargs) := by
        intro he
        rcases hvk with hvn | hvne
        · rw [hvn] at he; exact Option.noConfusion he
        · exact hvne (by rw [← he, hk])
      simp only [kwargList, kwargSlot, hk, List.zip_cons_cons, List.zip_nil_right,
        List.map_cons, List.map_nil]
      rw [renderItem, if_neg hne, if_pos (by rw [hk])]
      simp [String.append_empty]
  have hmap : ((spec.args ++ varargList spec ++ kwargList spec).zip
        (padDefaults spec ++ varargSlot spec ++ kwargSlot spec)).map (renderItem spec)
      = specRendered spec := by
    rw [hz, List.map_append, List.map_append, hmapA, hmapV, hmapK, specRendered]
  simp only [build_func_text]
  rw [← hspec]
  by_cases hemp : (padDefaults spec ++ varargSlot spec ++ kwargSlot spec).isEmpty = true
  · have hdnil : padDefaults spec ++ varargSlot spec ++ kwargSlot spec = [] := by
      simpa using hemp
    have hanil : spec.args ++ varargList spec ++ kwargList spec = [] := by
      have := full_lengths spec hlen
      rw [hdnil] at this
      exact List.length_eq_zero.mp this
    rw [if_pos hemp, hanil, List.zip_nil_left, List.foldl_nil]
    have hsr : specRendered spec = [] := by
      rw [← hmap, hanil, List.zip_nil_left, List.map_nil]
    rw [specSignature, hsr]
    show (name ++ "(") ++ ")" = ((name ++ "(") ++ joinCommaSp []) ++ ")"
    rw [joinCommaSp, String.append_empty]
  · have hne : (spec.args ++ varargList spec ++ kwargList spec).zip
        (padDefaults spec ++ varargSlot spec ++ kwargSlot spec) ≠ [] := by
      intro h0
      have hl : ((spec.args ++ varargList spec ++ kwargList spec).zip
          (padDefaults spec ++ varargSlot spec ++ kwargSlot spec)).length
          = (padDefaults spec ++ varargSlot spec ++ kwargSlot spec).length := by
        rw [List.length_zip, full_lengths spec hlen, Nat.min_self]
      rw [h0] at hl
      have : padDefaults spec ++ varargSlot spec ++ kwargSlot spec = [] :=
        List.length_eq_zero.mp hl.symm
      rw [this] at hemp
      exact hemp rfl
    rw [if_neg hemp]
    have hL0 : ((spec.args ++ varargList spec ++ kwargList spec).zip
          (padDefaults spec ++ varargSlot spec ++ kwargSlot spec)).foldl
          (fun acc p => acc ++ renderItem spec p ++ ", ") (name ++ "(")
        = ((name ++ "(") ++ joinCommaSp (specRendered spec)) ++ ", " := by
      calc ((spec.args ++ varargList spec ++ kwargList spec).zip
            (padDefaults spec ++ varargSlot spec ++ kwargSlot spec)).foldl
            (fun acc p => acc ++ renderItem spec p ++ ", ") (name ++ "(")
          = ((spec.args ++ varargList spec ++ kwargList spec).zip
            (padDefaults spec ++ varargSlot spec ++ kwargSlot spec)).foldl
            (fun acc p => acc ++ renderItem spec p ++ ", ") ((name ++ "(") ++ "") := by
            rw [String.append_empty]
        _ = (name ++ "(") ++ ((spec.args ++ varargList spec ++ kwargList spec).zip
            (padDefaults spec ++ varargSlot spec ++ kwargSlot spec)).foldl
            (fun acc p => acc ++ renderItem spec p ++ ", ") "" :=
            foldl_render_acc spec _ (name ++ "(") ""
        _ = (name ++ "(") ++ (joinCommaSp (specRendered spec) ++ ", ") := by
            rw [foldl_render_trail spec _ hne, hmap]
        _ = ((name ++ "(") ++ joinCommaSp (specRendered spec)) ++ ", " := by
            simp [String.append_assoc]
    rw [hL0, strDropLast2_append_comma, specSignature]

/-- C5: for every callable signature (distinct parameter names, the
defaults on a trailing subset, optional variadic-positional and
variadic-keyword parameters), the rendered one-line signature is the name
followed by the parenthesized comma-join of the parameters in declaration
order — defaulted ones as `name=repr(default)`, the variadic-positional as
`*name`, the variadic-keyword as `**name`; in particular bar renders
exactly as `bar(arg, darg=1, *star, **stars)`. -/
theorem C5_signature_rendering :
    (∀ (function : Entry) (name : String),
      function.argspec.defaults.length ≤ function.argspec.args.length →
      (∀ a ∈ function.argspec.args, some a ≠ function.argspec.varargs) →
      (∀ a ∈ function.argspec.args, some a ≠ function.argspec.keywords) →
      (function.argspec.varargs = Option.none
        ∨ function.argspec.varargs ≠ function.argspec.keywords) →
      (build_func_text function name).1 = specSignature name function.argspec)
    ∧ (build_func_text barEntry "bar").1 = "bar(arg, darg=1, *star, **stars)" := by
  constructor
  · intro function name hlen hva hka hvk
    exact build_func_text_renders function name hlen hva hka hvk
  · have h : pyRepr (Value.int 1) = "1" := by simp [pyRepr]; rfl
    have base : (build_func_text barEntry "bar").1 =
        strDropLast2 ((((("bar(" ++ ("arg" ++ "") ++ ", ")
          ++ ("darg" ++ ("=" ++ pyRepr (Value.int 1))) ++ ", ")
          ++ ("*star" ++ "") ++ ", ") ++ ("**stars" ++ "") ++ ", ")) ++ ")" := rfl
    rw [h] at base
    exact base

/-- C5 at a concrete input: `bar`'s build output agrees with the spec-side
rendering of its signature. -/
theorem C5_witness :
    (build_func_text barEntry "bar").1 = specSignature "bar" barEntry.argspec :=
  C5_signature_rendering.1 barEntry "bar" (by decide) (by decide) (by decide)
    (Or.inr (by decide))
